import Mathlib

/-!
Shallow embedding of the ARGUS radar classification service
(ARGUS-Brain: app/inference.py and app/main.py), together with proofs of
the specified behavioural claims.  Machine floats are modelled by the
rationals, Python dicts by insertion-ordered association lists, and the
per-track deque buffer by a list whose newest element is last.
-/

namespace Argus

/-- The fixed seven-label set MULTICLASS_LABELS of inference.py. -/
inductive Label where
  | HELICOPTER
  | UAV
  | HIGHSPEED
  | BIRD_FLOCK
  | BIRD
  | CIVIL_AIR
  | FIGHTER
deriving DecidableEq, Repr

/-- String name of a label, matching the tuple entries in MULTICLASS_LABELS. -/
def labelName : Label → String
  | .HELICOPTER => "HELICOPTER"
  | .UAV => "UAV"
  | .HIGHSPEED => "HIGHSPEED"
  | .BIRD_FLOCK => "BIRD_FLOCK"
  | .BIRD => "BIRD"
  | .CIVIL_AIR => "CIVIL_AIR"
  | .FIGHTER => "FIGHTER"

/-- The label tuple in source order. -/
def MULTICLASS_LABELS : List Label :=
  [.HELICOPTER, .UAV, .HIGHSPEED, .BIRD_FLOCK, .BIRD, .CIVIL_AIR, .FIGHTER]

/-- CLASS_ALIASES from inference.py: canonical hint text to label. -/
def CLASS_ALIASES : List (String × Label) :=
  [("HELICOPTER", .HELICOPTER), ("HELI", .HELICOPTER), ("ROTORCRAFT", .HELICOPTER),
   ("UAV", .UAV), ("DRONE", .UAV), ("UAS", .UAV),
   ("HIGHSPEED", .HIGHSPEED), ("HYPERSONIC", .HIGHSPEED), ("MISSILE", .HIGHSPEED),
   ("BIRD_FLOCK", .BIRD_FLOCK), ("FLOCK", .BIRD_FLOCK), ("BIRDS", .BIRD_FLOCK),
   ("BIRD", .BIRD),
   ("CIVIL_AIR", .CIVIL_AIR), ("COMMERCIAL_AIRCRAFT", .CIVIL_AIR), ("AIRLINER", .CIVIL_AIR),
   ("FIGHTER", .FIGHTER), ("MILITARY_JET", .FIGHTER)]

/-- Python str.strip at the character level: drop whitespace from both
ends.  The character-level model is used because Lean string primitives do
not reduce inside the kernel. -/
def stripChars (cs : List Char) : List Char :=
  ((cs.dropWhile Char.isWhitespace).reverse.dropWhile Char.isWhitespace).reverse

/-- The strip/replace/replace/upper canonicalisation of
_normalize_class_label; the two replacements target single characters and
uppercasing fixes dashes, spaces and underscores, so the pipeline is one
character map after the strip. -/
def canonicalizeHint (raw : String) : String :=
  String.mk ((stripChars raw.data).map
    (fun c => if c = '-' ∨ c = ' ' then '_' else c.toUpper))

/-- _normalize_class_label: canonicalise and look up in CLASS_ALIASES. -/
def normalizeClassLabel (raw : String) : Option Label :=
  (CLASS_ALIASES.find? (fun p => p.1 == canonicalizeHint raw)).map Prod.snd

/-- TrackObservation dataclass from inference.py; floats become rationals. -/
structure TrackObservation where
  timestamp_ms : Int
  x : ℚ
  y : ℚ
  z : ℚ
  speed : ℚ
  distance : ℚ
  object_class : String
  confidence : ℚ
deriving DecidableEq, Repr

/-- The buffer maintenance prefix of observe: append the new observation,
then pop from the front while the head timestamp is strictly below
latest.timestamp_ms minus feature_window_ms.  The deque is a list whose
newest element is last. -/
def pushWindow (feature_window_ms : Int) (buffer : List TrackObservation)
    (observation : TrackObservation) : List TrackObservation :=
  let appended := buffer ++ [observation]
  let cutoff := observation.timestamp_ms - feature_window_ms
  appended.dropWhile (fun o => decide (o.timestamp_ms < cutoff))

/-- An observation carrying only a timestamp, used for the eviction scenario. -/
def mkObs (t : Int) : TrackObservation :=
  { timestamp_ms := t, x := 0, y := 0, z := 0, speed := 0, distance := 0,
    object_class := "", confidence := 0 }

/-- Sum of a per-label score map over the seven labels (sum of dict values). -/
def sumOverLabels (f : Label → ℚ) : ℚ :=
  (MULTICLASS_LABELS.map f).sum

/-- _normalize_probability_map: clamp each score to be nonnegative; if the
total is nonpositive return the uniform distribution, otherwise scale the
scores so they sum to 100. -/
def normalizeProbabilityMap (raw_scores : Label → ℚ) : Label → ℚ :=
  let clamped := fun l => max 0 (raw_scores l)
  let total := sumOverLabels clamped
  if total ≤ 0 then fun _ => 100 / 7
  else fun l => clamped l / total * 100

/-- _to_uav_decision: tri-state hysteresis thresholding. -/
def toUavDecision (threshold : ℚ) (probability : ℚ) : String :=
  if probability ≥ threshold then "UAV"
  else if probability ≤ threshold - 20 then "NON_UAV"
  else "UNKNOWN"

/-- _to_uav_probability: UAV percent plus 0.35 of the HELICOPTER percent,
clamped into the interval from 0 to 100. -/
def toUavProbability (probabilities : Label → ℚ) : ℚ :=
  let score := probabilities .UAV + probabilities .HELICOPTER * (35 / 100)
  max 0 (min 100 score)

/-- Largest element of a list (Python max over a non-empty list; 0 unused). -/
def listMax : List ℚ → ℚ
  | [] => 0
  | s :: rest => rest.foldl max s

/-- Smallest element of a list (Python min over a non-empty list; 0 unused). -/
def listMin : List ℚ → ℚ
  | [] => 0
  | s :: rest => rest.foldl min s

/-- statistics.mean of a list; callers only use it on non-empty lists. -/
def listMean (l : List ℚ) : ℚ :=
  l.sum / l.length

/-- The speed_variation expression: max minus min when more than one sample,
else 0. -/
def speedSpan (speeds : List ℚ) : ℚ :=
  if 1 < speeds.length then listMax speeds - listMin speeds else 0

/-- A placeholder observation standing for the unreachable empty-buffer
access of the last deque element; every caller guards non-emptiness. -/
def dummyObservation : TrackObservation := mkObs 0

/-- _build_feature_vector: the fixed six-entry feature vector. -/
def buildFeatureVector (buffer : List TrackObservation) : List ℚ :=
  let latest := buffer.getLastD dummyObservation
  let speeds := buffer.map (fun s => s.speed)
  let avg_speed := listMean speeds
  let speed_span := speedSpan speeds
  [latest.speed, latest.distance, latest.confidence, avg_speed, speed_span,
    (buffer.length : ℚ)]

/-- Class-hint bonus of the heuristic: plus 7 on the recognised hint label. -/
def hintBonus (hint : Option Label) : Label → ℚ :=
  fun l => if hint = some l then 7 else 0

/-- Average-speed bucket increments of the heuristic scorer. -/
def speedBucketBonus (avg_speed : ℚ) : Label → ℚ := fun l =>
  if avg_speed < 8 then
    if l = .BIRD then 6 else if l = .BIRD_FLOCK then 4 else 0
  else if avg_speed < 35 then
    if l = .UAV then 5 else if l = .HELICOPTER then 4 else
      if l = .BIRD then 2 else 0
  else if avg_speed < 90 then
    if l = .UAV then 3 else if l = .HELICOPTER then 3 else
      if l = .CIVIL_AIR then 2 else 0
  else if avg_speed < 180 then
    if l = .CIVIL_AIR then 5 else if l = .FIGHTER then 3 else
      if l = .HIGHSPEED then 2 else 0
  else
    if l = .HIGHSPEED then 6 else if l = .FIGHTER then 5 else 0

/-- Distance increments of the heuristic scorer (both conditions can fire
for no distance, and each adds to disjoint label sets). -/
def proximityBonus (distance : ℚ) : Label → ℚ := fun l =>
  (if distance ≤ 30 then
    if l = .UAV then 2 else if l = .BIRD then 2 else
      if l = .HELICOPTER then 1 else 0
   else 0)
  + (if distance ≥ 120 then
    if l = .CIVIL_AIR then 5/2 else if l = .FIGHTER then 2 else
      if l = .HIGHSPEED then 1 else 0
   else 0)

/-- Altitude increments of the heuristic scorer. -/
def altitudeBonus (z : ℚ) : Label → ℚ := fun l =>
  (if z ≤ 200 then
    if l = .UAV then 2 else if l = .HELICOPTER then 3/2 else
      if l = .BIRD then 2 else 0
   else 0)
  + (if z ≥ 1500 then
    if l = .CIVIL_AIR then 3 else if l = .FIGHTER then 3 else
      if l = .HIGHSPEED then 2 else 0
   else 0)

/-- Speed-variation increments of the heuristic scorer. -/
def variationBonus (speed_variation : ℚ) : Label → ℚ := fun l =>
  if speed_variation < 15 then
    if l = .HELICOPTER then 2 else if l = .CIVIL_AIR then 3/2 else
      if l = .BIRD_FLOCK then 1 else 0
  else if speed_variation > 60 then
    if l = .HIGHSPEED then 5/2 else if l = .FIGHTER then 2 else 0
  else 0

/-- Confidence boost: plus 2 on the hinted label when the latest confidence
is at least 80 and the hint is recognised. -/
def confidenceBonus (confidence : ℚ) (hint : Option Label) : Label → ℚ :=
  fun l => if confidence ≥ 80 ∧ hint = some l then 2 else 0

/-- The accumulated scores of _predict_with_heuristic before normalisation:
every label starts at 1.0 and the sequential in-place increments are the
per-feature bonus terms. -/
def heuristicScores (buffer : List TrackObservation) : Label → ℚ :=
  let latest := buffer.getLastD dummyObservation
  let speeds := buffer.map (fun s => s.speed)
  let avg_speed := listMean speeds
  let speed_variation := speedSpan speeds
  let normalized_hint := normalizeClassLabel latest.object_class
  fun l =>
    1 + hintBonus normalized_hint l + speedBucketBonus avg_speed l
      + proximityBonus latest.distance l + altitudeBonus latest.z l
      + variationBonus speed_variation l
      + confidenceBonus latest.confidence normalized_hint l

/-- _predict_with_heuristic: score then normalise. -/
def predictWithHeuristic (buffer : List TrackObservation) : Label → ℚ :=
  normalizeProbabilityMap (heuristicScores buffer)

/-- The duck-typed joblib predictor: optional predict_proba and predict
capabilities over the feature vector, plus the classes_ attribute
(empty when absent).  An inner none models a raised exception. -/
structure JoblibPredictor where
  predictProba : Option (List ℚ → Option (List ℚ))
  classesVocab : List String
  predictLabel : Option (List ℚ → Option String)

/-- The legacy binary assignment of _map_model_output: second score to UAV
and first score to CIVIL_AIR, each scaled to percent and clamped. -/
def binaryFallbackAssign (mapped : Label → ℚ) (probabilities : List ℚ) :
    Label → ℚ :=
  fun l =>
    if l = .UAV then max 0 (min 100 (probabilities.getD 1 0 * 100))
    else if l = .CIVIL_AIR then max 0 (min 100 (probabilities.getD 0 0 * 100))
    else mapped l

/-- _map_model_output: none stands for the falsy empty dict. -/
def mapModelOutput (raw_classes : List String) (probabilities : List ℚ) :
    Option (Label → ℚ) :=
  if raw_classes.isEmpty then
    if probabilities.length = 2 then
      some (binaryFallbackAssign (fun _ => 0) probabilities)
    else none
  else
    let mapped : Label → ℚ := fun l =>
      ((raw_classes.zip probabilities).map (fun cp =>
        if normalizeClassLabel cp.1 = some l then max 0 (cp.2 * 100) else 0)).sum
    if sumOverLabels mapped ≤ 0 ∧ probabilities.length = 2 then
      some (binaryFallbackAssign mapped probabilities)
    else if sumOverLabels mapped ≤ 0 then none
    else some mapped

/-- The predict branch of _predict_with_joblib_model: emit a one-hot
distribution when the returned single label is recognised. -/
def tryPredictLabel (p : JoblibPredictor) (feature_vector : List ℚ) :
    Option (Label → ℚ) :=
  match p.predictLabel with
  | none => none
  | some predict =>
    match predict feature_vector with
    | none => none
    | some prediction =>
      match normalizeClassLabel prediction with
      | none => none
      | some mapped_label =>
        some (fun l => if l = mapped_label then 100 else 0)

/-- _predict_with_joblib_model: probability query first (normalising a
truthy mapped output), then the single-label query; any exception or falsy
result yields none. -/
def predictWithJoblibModel (p : JoblibPredictor)
    (buffer : List TrackObservation) : Option (Label → ℚ) :=
  let feature_vector := buildFeatureVector buffer
  match p.predictProba with
  | some proba =>
    match proba feature_vector with
    | none => none
    | some raw_probabilities =>
      match mapModelOutput p.classesVocab raw_probabilities with
      | some mapped => some (normalizeProbabilityMap mapped)
      | none => tryPredictLabel p feature_vector
  | none => tryPredictLabel p feature_vector

/-- The active model: the built-in heuristic, or a joblib model with a
live predictor (model_type "joblib" and a non-null predictor handle). -/
inductive ActiveModel where
  | heuristic
  | joblib (p : JoblibPredictor)

/-- _predict_multiclass_probabilities: uniform fallback on an empty window,
then the external model when active, then the heuristic. -/
def predictMulticlassProbabilities (model : ActiveModel)
    (buffer : List TrackObservation) : Label → ℚ :=
  if buffer.isEmpty then fun _ => 100 / 7
  else
    match model with
    | .heuristic => predictWithHeuristic buffer
    | .joblib p =>
      match predictWithJoblibModel p buffer with
      | some prediction => prediction
      | none => predictWithHeuristic buffer

/-- A vocabulary-free binary predictor whose probability query returns the
two fixed scores and which has no single-label query. -/
def mkBinaryPredictor (p0 p1 : ℚ) : JoblibPredictor :=
  { predictProba := some (fun _ => some [p0, p1]),
    classesVocab := [],
    predictLabel := none }

/-- Round half to even, the tie behaviour of the Python built-in round
applied to an idealised (rational) value. -/
def roundHalfEven (q : ℚ) : Int :=
  let f := ⌊q⌋
  let frac := q - f
  if frac < 1 / 2 then f
  else if 1 / 2 < frac then f + 1
  else if f % 2 = 0 then f else f + 1

/-- Python round(x, 3). -/
def round3 (q : ℚ) : ℚ := (roundHalfEven (q * 1000) : ℚ) / 1000

/-- Python round(x, 2), used at the presentation boundary of observe. -/
def round2 (q : ℚ) : ℚ := (roundHalfEven (q * 100) : ℚ) / 100

/-- int(fraction * (n - 1)): int() truncation agrees with the floor on the
nonnegative products used by the percentile helper. -/
def percentileIndex (fraction : ℚ) (n : Nat) : Nat :=
  (⌊fraction * ((n : ℚ) - 1)⌋).toNat

/-- ServiceState._percentiles: (0, 0) for an empty history, otherwise sort
ascending and read the p50 and p95 entries, each rounded to three
decimals. -/
def percentiles (values : List ℚ) : ℚ × ℚ :=
  if values = [] then (0, 0)
  else
    let ordered := values.insertionSort (fun a b => a ≤ b)
    let p50_idx := percentileIndex (1 / 2) values.length
    let p95_idx := percentileIndex (19 / 20) values.length
    (round3 (ordered.getD p50_idx 0), round3 (ordered.getD p95_idx 0))

/-- Python dict lookup with a default. -/
def dictGetD {α : Type} (entries : List (String × α)) (k : String)
    (fallback : α) : α :=
  ((entries.find? (fun p => p.1 == k)).map Prod.snd).getD fallback

/-- Python dict assignment: update the existing key in place, else append
the new entry at the end (insertion order preserved). -/
def dictSet {α : Type} (entries : List (String × α)) (k : String) (v : α) :
    List (String × α) :=
  if entries.any (fun p => p.1 == k) then
    entries.map (fun p => if p.1 == k then (k, v) else p)
  else entries ++ [(k, v)]

/-- The decision diff of poll_once for one classified observation: read the
previous decision (defaulting to UNKNOWN), store the new one, and report
whether a synthetic ALERT event is appended, namely exactly when the
previous decision is not UAV and the new one is UAV. -/
def decisionStep (history : List (String × String)) (object_id : String)
    (current_decision : String) : List (String × String) × Bool :=
  let prev := dictGetD history object_id "UNKNOWN"
  (dictSet history object_id current_decision,
   decide (prev ≠ "UAV" ∧ current_decision = "UAV"))

/-- The emission flags produced by running the decision diff over the
successive decisions of one track. -/
def runDecisions (object_id : String) (history : List (String × String)) :
    List String → List Bool
  | [] => []
  | d :: ds =>
    let step := decisionStep history object_id d
    step.2 :: runDecisions object_id step.1 ds

/-- Python str.strip as a kernel-computable character-level function. -/
def pyStrip (s : String) : String :=
  String.mk (stripChars s.data)

/-- Python str.upper as a kernel-computable character-level function. -/
def pyUpper (s : String) : String :=
  String.mk (s.data.map Char.toUpper)

/-- A registered model: the fields of the LoadedModel dataclass that the
registry logic reads (the opaque predictor handle is irrelevant here). -/
structure LoadedModel where
  model_id : String
  model_type : String
  model_version : String
  model_path : String
deriving DecidableEq, Repr

/-- The _models dict plus the _active_model_id pointer. -/
structure Registry where
  models : List (String × LoadedModel)
  active_model_id : String
deriving DecidableEq, Repr

/-- Python membership test model_id in self._models. -/
def hasModel (r : Registry) (model_id : String) : Prop :=
  model_id ∈ r.models.map Prod.fst

instance (r : Registry) (model_id : String) : Decidable (hasModel r model_id) :=
  inferInstanceAs (Decidable (model_id ∈ r.models.map Prod.fst))

/-- The entry written by _register_heuristic_model. -/
def heuristicModel : LoadedModel :=
  { model_id := "heuristic-default", model_type := "heuristic",
    model_version := "heuristic-multiclass-v1", model_path := "" }

/-- The registry right after the constructor registers and activates the
built-in heuristic model. -/
def initialRegistry : Registry :=
  { models := [("heuristic-default", heuristicModel)],
    active_model_id := "heuristic-default" }

/-- activate_model: raise on an unknown id, else move the pointer. -/
def activateModel (r : Registry) (model_id : String) :
    Except String Registry :=
  if hasModel r model_id then
    Except.ok { r with active_model_id := model_id }
  else Except.error "model not found"

/-- register_joblib_model: strip the id, reject an empty id, reject a
missing path or a failing artifact load (both folded into load_ok, raised
before any state change), insert the entry and optionally activate it. -/
def registerJoblibModel (r : Registry) (model_id : String)
    (model : LoadedModel) (activate : Bool) (load_ok : Bool) :
    Except String Registry :=
  if pyStrip model_id = "" then Except.error "model_id must not be empty"
  else if ¬ load_ok then Except.error "failed to load joblib model"
  else
    let r1 : Registry :=
      { r with models := dictSet r.models (pyStrip model_id) model }
    if activate then activateModel r1 (pyStrip model_id) else Except.ok r1

/-- unregister_model: raise on an unknown id or on the default id, else
delete the entry and reset the pointer to the default when the removed
model was active. -/
def unregisterModel (r : Registry) (model_id : String) :
    Except String Registry :=
  if ¬ hasModel r model_id then Except.error "model not found"
  else if model_id = "heuristic-default" then
    Except.error "heuristic-default model cannot be removed"
  else
    Except.ok
      { models := r.models.filter (fun p => !(p.1 == model_id)),
        active_model_id :=
          if r.active_model_id = model_id then "heuristic-default"
          else r.active_model_id }

/-- Registry states reachable from the constructor state through the
lifecycle operations (failed operations raise and leave the state
unchanged, so only successful results appear). -/
inductive Reachable : Registry → Prop where
  | init : Reachable initialRegistry
  | register (r r2 : Registry) (model_id : String) (model : LoadedModel)
      (activate load_ok : Bool) (hr : Reachable r)
      (hs : registerJoblibModel r model_id model activate load_ok
        = Except.ok r2) : Reachable r2
  | activate (r r2 : Registry) (model_id : String) (hr : Reachable r)
      (hs : activateModel r model_id = Except.ok r2) : Reachable r2
  | unregister (r r2 : Registry) (model_id : String) (hr : Reachable r)
      (hs : unregisterModel r model_id = Except.ok r2) : Reachable r2

/-- The registry invariant: the default model is registered and the active
pointer resolves. -/
def RegistryInv (r : Registry) : Prop :=
  hasModel r "heuristic-default" ∧ hasModel r r.active_model_id

/-- A JSON-like value for the payload records handled by main.py. -/
inductive JVal where
  | str (s : String)
  | num (q : ℚ)
  | bool (b : Bool)
  | obj (fields : List (String × JVal))
  | arr (items : List JVal)

/-- Lookup in a Python dict literal built left to right: a later duplicate
assignment of a key overwrites an earlier one. -/
def pyDictGet : List (String × JVal) → String → Option JVal
  | [], _ => none
  | p :: rest, k =>
    match pyDictGet rest k with
    | some v => some v
    | none => if p.1 = k then some p.2 else none

/-- _sorted_probabilities: sort the label-probability pairs by probability
descending (stably, matching Python sorted with reverse) and round each
stored probability to two decimals. -/
def sortedProbabilityEntries (probabilities : Label → ℚ) :
    List (Label × ℚ) :=
  ((MULTICLASS_LABELS.map (fun l => (l, probabilities l))).insertionSort
    (fun a b => b.2 ≤ a.2)).map (fun e => (e.1, round2 e.2))

/-- The dict returned by observe, given the already-computed probability
map: top class and confidence from the head of the sorted entries, the
hysteresis decision on the legacy UAV probability, and the configuration
echoes. -/
def observeEntries (threshold : ℚ) (feature_window_ms : Int)
    (model_version : String) (probabilities : Label → ℚ) :
    List (String × JVal) :=
  let sorted_probabilities := sortedProbabilityEntries probabilities
  let top := sorted_probabilities.headD (.HELICOPTER, 0)
  let uav_probability := toUavProbability probabilities
  [("class", .str (labelName top.1)),
   ("confidence", .num (round2 top.2)),
   ("probabilities", .arr (sorted_probabilities.map (fun e =>
      .obj [("className", .str (labelName e.1)),
            ("probability", .num e.2)]))),
   ("classificationType", .str "MULTI_CLASS"),
   ("uavDecision", .str (toUavDecision threshold uav_probability)),
   ("uavProbability", .num (round2 uav_probability)),
   ("uavThreshold", .num threshold),
   ("featureWindowMs", .num (feature_window_ms : ℚ)),
   ("inferenceModelVersion", .str model_version)]

/-- The normalized object record of poll_once: the raw feed fields first,
then the derived fields, then the classification result, later keys
overwriting earlier ones on lookup. -/
def normalizedObjectEntries (obj : List (String × JVal))
    (object_id object_class : String)
    (x y z vx vy vz speed distance confidence inference_ms : ℚ)
    (inference : List (String × JVal)) : List (String × JVal) :=
  obj ++
  [("id", .str object_id),
   ("class", .str object_class),
   ("position", .obj [("x", .num x), ("y", .num y), ("z", .num z)]),
   ("velocity", .obj [("x", .num vx), ("y", .num vy), ("z", .num vz)]),
   ("speed", .num speed),
   ("distance", .num distance),
   ("confidence", .num confidence),
   ("inferenceLatencyMs", .num (round3 inference_ms))] ++
  inference

/-- The four bounded latency histories of ServiceState (the deque caps are
enforced on append, which the failure path never performs). -/
structure LatencyState where
  frame_timestamp_history : List ℚ
  inference_ms_history : List ℚ
  model_latency_frame_history : List ℚ
  pipeline_ms_history : List ℚ

/-- The keys that _build_status reads from its source_status dict argument,
each optional because the upstream status is free-form. -/
structure SourceStatus where
  modelName : Option String := none
  modelVersion : Option String := none
  device : Option String := none
  latency : Option ℚ := none
  fps : Option ℚ := none
  totalDetected : Option Int := none
  sensorStatus : Option String := none
  cpuUsage : Option ℚ := none
  gpuUsage : Option ℚ := none
  ramUsage : Option ℚ := none

/-- The status block built by _build_status. -/
structure SystemStatus where
  connectionStatus : String
  modelName : String
  modelVersion : String
  device : String
  latency : ℚ
  fps : ℚ
  trackedObjects : Nat
  activeTracksCount : Nat
  totalDetected : Int
  sensorStatus : String
  cpuUsage : ℚ
  gpuUsage : ℚ
  ramUsage : ℚ
  measuredFps : ℚ
  modelLatencyP50 : ℚ
  modelLatencyP95 : ℚ
  inferenceLatencyP50 : ℚ
  inferenceLatencyP95 : ℚ
  pipelineLatencyP95 : ℚ

/-- _to_text on an optional string: fall back on absence or on an
all-whitespace value, else return the stripped text. -/
def toTextD (v : Option String) (fallback : String) : String :=
  match v with
  | none => fallback
  | some s => if pyStrip s = "" then fallback else pyStrip s

/-- str(value) for payload values; compound values get placeholder
renderings, which like the Python renderings never collide with the
status keywords compared against. -/
def jvalStr : JVal → String
  | .str s => s
  | .num q => toString q
  | .bool b => if b then "True" else "False"
  | .obj _ => "dict"
  | .arr _ => "list"

/-- _to_text applied to an optional payload value. -/
def pyToText (v : Option JVal) (fallback : String) : String :=
  match v with
  | none => fallback
  | some v => if pyStrip (jvalStr v) = "" then fallback else pyStrip (jvalStr v)

/-- _calculate_measured_fps: 0 with fewer than two frame timestamps or a
non-positive span, else frames-minus-one over the span, rounded. -/
def calculateMeasuredFps (frames : List ℚ) : ℚ :=
  if frames.length < 2 then 0
  else
    let elapsed := frames.getLastD 0 - frames.headD 0
    if elapsed ≤ 0 then 0
    else round3 (((frames.length : ℚ) - 1) / elapsed)

/-- A normalized object record as stored in the published snapshot. -/
def NormRecord : Type := List (String × JVal)

/-- _build_status: percentile and fps statistics from the histories,
counts from the object list, pass-through fields from the source status
with the configured defaults, and the connection state. -/
def buildStatus (model_version_fallback : String) (lat : LatencyState)
    (source_status : SourceStatus) (objects : List NormRecord)
    (connected : Bool) : SystemStatus :=
  let inference_p := percentiles lat.inference_ms_history
  let model_p := percentiles lat.model_latency_frame_history
  let pipeline_p := percentiles lat.pipeline_ms_history
  let measured_fps := calculateMeasuredFps lat.frame_timestamp_history
  let active_count := objects.countP (fun o =>
    decide (pyUpper (pyToText (pyDictGet o "status") "") = "TRACKING"
      ∨ pyUpper (pyToText (pyDictGet o "status") "") = "STABLE"))
  { connectionStatus := if connected then "LIVE" else "DISCONNECTED",
    modelName := toTextD source_status.modelName "ARGUS-Brain-Multiclass",
    modelVersion := toTextD source_status.modelVersion model_version_fallback,
    device := toTextD source_status.device "AESA-Array-X1",
    latency := if 0 < model_p.1 then model_p.1
      else source_status.latency.getD 0,
    fps := if 0 < measured_fps then measured_fps
      else source_status.fps.getD 0,
    trackedObjects := objects.length,
    activeTracksCount := active_count,
    totalDetected :=
      max (objects.length : Int)
        (source_status.totalDetected.getD (objects.length : Int)),
    sensorStatus := toTextD source_status.sensorStatus "ONLINE",
    cpuUsage := source_status.cpuUsage.getD 0,
    gpuUsage := source_status.gpuUsage.getD 0,
    ramUsage := source_status.ramUsage.getD 0,
    measuredFps := measured_fps,
    modelLatencyP50 := model_p.1,
    modelLatencyP95 := model_p.2,
    inferenceLatencyP50 := inference_p.1,
    inferenceLatencyP95 := inference_p.2,
    pipelineLatencyP95 := pipeline_p.2 }

/-- Reading a previously built status dict back as a source status: every
key _build_status consumes is present in the dict it produces. -/
def statusToSource (s : SystemStatus) : SourceStatus :=
  { modelName := some s.modelName,
    modelVersion := some s.modelVersion,
    device := some s.device,
    latency := some s.latency,
    fps := some s.fps,
    totalDetected := some s.totalDetected,
    sensorStatus := some s.sensorStatus,
    cpuUsage := some s.cpuUsage,
    gpuUsage := some s.gpuUsage,
    ramUsage := some s.ramUsage }

/-- The poll-loop-relevant mutable state of ServiceState: the latency
histories, the published frame triple, the error and connection markers,
and the active model version used as the status fallback. -/
structure ServiceState where
  lat : LatencyState
  last_frame_objects : List NormRecord
  last_frame_events : List NormRecord
  last_frame_status : SystemStatus
  last_error : String
  source_connected : Bool
  last_polled_at : ℚ
  model_version : String

/-- The except branch of poll_loop: mark the source disconnected, record
the error text, and rebuild only the status block from the previous status
and the retained objects; objects, events and histories are untouched. -/
def pollLoopFailStep (s : ServiceState) (error : String) : ServiceState :=
  { s with
    source_connected := false,
    last_error := error,
    last_frame_status :=
      buildStatus s.model_version s.lat
        (statusToSource s.last_frame_status) s.last_frame_objects false }

/-- One poll cycle seen from the loop: either poll_once succeeds, carrying
the freshly normalized objects and events, the upstream status and the
updated histories and poll time, or it raises with an error. -/
inductive CycleOutcome where
  | success (objects events : List NormRecord)
      (source_status : SourceStatus) (lat : LatencyState) (polled_at : ℚ)
  | failure (error : String)

/-- The body of one poll_loop iteration: publish the fresh frame on
success, run the except branch on failure; the loop itself never stops on
a failure. -/
def pollCycle (s : ServiceState) : CycleOutcome → ServiceState
  | .success objects events source_status lat polled_at =>
    { s with
      lat := lat,
      source_connected := true,
      last_error := "",
      last_polled_at := polled_at,
      last_frame_objects := objects,
      last_frame_events := events,
      last_frame_status :=
        buildStatus s.model_version lat source_status objects true }
  | .failure error => pollLoopFailStep s error

/-- Running poll_loop over a finite schedule of cycle outcomes. -/
def pollLoopRun (s : ServiceState) (outcomes : List CycleOutcome) :
    ServiceState :=
  outcomes.foldl pollCycle s

/-- An empty latency state for concrete witnesses. -/
def emptyLatencyState : LatencyState :=
  { frame_timestamp_history := [], inference_ms_history := [],
    model_latency_frame_history := [], pipeline_ms_history := [] }

/-- A concrete service state for witnesses: the startup frame published by
the ServiceState constructor. -/
def startupServiceState : ServiceState :=
  { lat := emptyLatencyState,
    last_frame_objects := [],
    last_frame_events := [],
    last_frame_status :=
      buildStatus "heuristic-multiclass-v1" emptyLatencyState {} [] false,
    last_error := "",
    source_connected := false,
    last_polled_at := 0,
    model_version := "heuristic-multiclass-v1" }

end Argus

namespace Argus

/-- Dropping the strictly-too-old prefix of a timestamp-sorted list removes
exactly the entries strictly below the cutoff. -/
theorem dropWhile_lt_eq_filter_of_sorted (c : Int) (l : List TrackObservation)
    (h : l.Pairwise (fun a b => a.timestamp_ms ≤ b.timestamp_ms)) :
    l.dropWhile (fun o => decide (o.timestamp_ms < c))
      = l.filter (fun o => decide (c ≤ o.timestamp_ms)) := by
  induction l with
  | nil => rfl
  | cons a t ih =>
    rcases List.pairwise_cons.mp h with ⟨ha, ht⟩
    by_cases hc : a.timestamp_ms < c
    · have hnotkeep : ¬ c ≤ a.timestamp_ms := by omega
      simp [List.dropWhile_cons, List.filter_cons, hc, hnotkeep, ih ht]
    · have hkeep : c ≤ a.timestamp_ms := by omega
      have hall : ∀ b ∈ t, decide (c ≤ b.timestamp_ms) = true := by
        intro b hb
        have := ha b hb
        simp only [decide_eq_true_eq]
        omega
      simp [List.dropWhile_cons, List.filter_cons, hc, hkeep,
        List.filter_eq_self.mpr hall]

/-- A dropWhile that rejects the last element of the list never returns
the empty list. -/
theorem dropWhile_ne_nil_of_last_false {α : Type} (p : α → Bool)
    (l : List α) (a : α) (h : p a = false) :
    (l ++ [a]).dropWhile p ≠ [] := by
  induction l with
  | nil => simp [List.dropWhile_cons, h]
  | cons b t ih =>
    by_cases hb : p b
    · simpa [List.dropWhile_cons, hb] using ih
    · simp [List.dropWhile_cons, hb]

/-- Claim C3: a push appends the observation and then evicts from the front
exactly the entries whose timestamp is strictly below the latest timestamp
minus the feature window (stated for windows with non-decreasing
timestamps, which the caller supplies by contract); the pushed observation
is always retained so the window is never empty after a push; and the
concrete scenario of pushes at t equal to 0, 1000, 2500 and 3000 with a
2000 ms window retains exactly the observations with t at least 1000. -/
theorem pushWindow_evicts_exactly (w : Int) (buffer : List TrackObservation)
    (obs : TrackObservation) (hw : 0 ≤ w)
    (hsorted : (buffer ++ [obs]).Pairwise
      (fun a b => a.timestamp_ms ≤ b.timestamp_ms)) :
    pushWindow w buffer obs
      = (buffer ++ [obs]).filter
          (fun o => decide (obs.timestamp_ms - w ≤ o.timestamp_ms))
    ∧ obs ∈ pushWindow w buffer obs
    ∧ pushWindow w buffer obs ≠ []
    ∧ pushWindow 2000
        (pushWindow 2000 (pushWindow 2000 (pushWindow 2000 [] (mkObs 0))
          (mkObs 1000)) (mkObs 2500)) (mkObs 3000)
        = [mkObs 1000, mkObs 2500, mkObs 3000] := by
  have hfilter : pushWindow w buffer obs
      = (buffer ++ [obs]).filter
          (fun o => decide (obs.timestamp_ms - w ≤ o.timestamp_ms)) :=
    dropWhile_lt_eq_filter_of_sorted _ _ hsorted
  have hkeep : decide (obs.timestamp_ms - w ≤ obs.timestamp_ms) = true := by
    simp only [decide_eq_true_eq]; omega
  have hmem : obs ∈ pushWindow w buffer obs := by
    rw [hfilter]
    exact List.mem_filter.mpr ⟨List.mem_append_right _ (by simp), hkeep⟩
  refine ⟨hfilter, hmem, ?_, ?_⟩
  · exact fun hnil => by simp [hnil] at hmem
  · decide

/-- The seven-term expansion of a label sum. -/
theorem sumOverLabels_eq (f : Label → ℚ) :
    sumOverLabels f
      = f .HELICOPTER + f .UAV + f .HIGHSPEED + f .BIRD_FLOCK + f .BIRD
        + f .CIVIL_AIR + f .FIGHTER := by
  simp [sumOverLabels, MULTICLASS_LABELS]
  ring

/-- The probability normaliser always returns a map summing to 100. -/
theorem sum_normalizeProbabilityMap (raw : Label → ℚ) :
    sumOverLabels (normalizeProbabilityMap raw) = 100 := by
  simp only [normalizeProbabilityMap]
  by_cases h : sumOverLabels (fun l => max 0 (raw l)) ≤ 0
  · rw [if_pos h, sumOverLabels_eq]
    norm_num
  · rw [if_neg h]
    have h0 : sumOverLabels (fun l => max 0 (raw l)) ≠ 0 :=
      fun he => h (le_of_eq he)
    rw [sumOverLabels_eq]
    rw [sumOverLabels_eq] at h0 ⊢
    field_simp
    ring

/-- A one-hot map over the seven labels sums to 100. -/
theorem sum_oneHot (m : Label) :
    sumOverLabels (fun l => if l = m then (100 : ℚ) else 0) = 100 := by
  cases m <;> simp [sumOverLabels_eq]

/-- Any distribution produced by the predict branch sums to 100. -/
theorem sum_tryPredictLabel (p : JoblibPredictor) (fv : List ℚ)
    (f : Label → ℚ) (h : tryPredictLabel p fv = some f) :
    sumOverLabels f = 100 := by
  unfold tryPredictLabel at h
  repeat' split at h
  all_goals simp_all
  subst h
  exact sum_oneHot _

/-- Any distribution produced by the external-model path sums to 100. -/
theorem sum_predictWithJoblibModel (p : JoblibPredictor)
    (buffer : List TrackObservation) (f : Label → ℚ)
    (h : predictWithJoblibModel p buffer = some f) :
    sumOverLabels f = 100 := by
  simp only [predictWithJoblibModel] at h
  cases hpp : p.predictProba with
  | none =>
    rw [hpp] at h
    exact sum_tryPredictLabel _ _ _ h
  | some proba =>
    rw [hpp] at h
    dsimp only at h
    cases hpr : proba (buildFeatureVector buffer) with
    | none =>
      rw [hpr] at h
      dsimp only at h
      exact absurd h (by simp)
    | some raw_probabilities =>
      rw [hpr] at h
      dsimp only at h
      cases hm : mapModelOutput p.classesVocab raw_probabilities with
      | none =>
        rw [hm] at h
        dsimp only at h
        exact sum_tryPredictLabel _ _ _ h
      | some mapped =>
        rw [hm] at h
        dsimp only at h
        have he : normalizeProbabilityMap mapped = f :=
          Option.some_injective _ h
        rw [← he]
        exact sum_normalizeProbabilityMap _

/-- Claim C1: classify always returns a map over the seven fixed labels
whose values sum exactly to 100, on the heuristic path, the external-model
path and the empty-window fallback; an empty window yields the uniform
distribution with every label equal to 100 divided by 7. -/
theorem classify_sums_to_100 (model : ActiveModel)
    (buffer : List TrackObservation) :
    sumOverLabels (predictMulticlassProbabilities model buffer) = 100
    ∧ (buffer = [] →
        ∀ l, predictMulticlassProbabilities model buffer l = 100 / 7) := by
  constructor
  · cases buffer with
    | nil =>
      simp only [predictMulticlassProbabilities, List.isEmpty_nil, if_true]
      rw [sumOverLabels_eq]
      norm_num
    | cons a t =>
      unfold predictMulticlassProbabilities
      rw [if_neg (by simp : ¬ (a :: t).isEmpty = true)]
      cases model with
      | heuristic => exact sum_normalizeProbabilityMap _
      | joblib p =>
        dsimp only
        cases hj : predictWithJoblibModel p (a :: t) with
        | none =>
          dsimp only
          exact sum_normalizeProbabilityMap _
        | some prediction =>
          dsimp only
          exact sum_predictWithJoblibModel _ _ _ hj
  · intro he l
    subst he
    simp [predictMulticlassProbabilities]

/-- Claim C1 witness at the empty window under the heuristic model. -/
theorem classify_sums_to_100_witness :
    sumOverLabels (predictMulticlassProbabilities .heuristic []) = 100
    ∧ predictMulticlassProbabilities .heuristic [] .UAV = 100 / 7 :=
  ⟨(classify_sums_to_100 .heuristic []).1,
   (classify_sums_to_100 .heuristic []).2 rfl .UAV⟩

/-- The class-hint bonus is nonnegative. -/
theorem hintBonus_nonneg (hint : Option Label) (l : Label) :
    0 ≤ hintBonus hint l := by
  unfold hintBonus
  split <;> norm_num

/-- The speed-bucket bonus is nonnegative. -/
theorem speedBucketBonus_nonneg (avg : ℚ) (l : Label) :
    0 ≤ speedBucketBonus avg l := by
  unfold speedBucketBonus
  split_ifs <;> cases l <;> norm_num

/-- The proximity bonus is nonnegative. -/
theorem proximityBonus_nonneg (d : ℚ) (l : Label) :
    0 ≤ proximityBonus d l := by
  unfold proximityBonus
  apply add_nonneg <;> split_ifs <;> cases l <;> norm_num

/-- The altitude bonus is nonnegative. -/
theorem altitudeBonus_nonneg (z : ℚ) (l : Label) :
    0 ≤ altitudeBonus z l := by
  unfold altitudeBonus
  apply add_nonneg <;> split_ifs <;> cases l <;> norm_num

/-- The speed-variation bonus is nonnegative. -/
theorem variationBonus_nonneg (v : ℚ) (l : Label) :
    0 ≤ variationBonus v l := by
  unfold variationBonus
  split_ifs <;> cases l <;> norm_num

/-- The confidence bonus is nonnegative. -/
theorem confidenceBonus_nonneg (c : ℚ) (hint : Option Label) (l : Label) :
    0 ≤ confidenceBonus c hint l := by
  unfold confidenceBonus
  split <;> norm_num

/-- Every accumulated heuristic score is at least its base value 1. -/
theorem heuristicScores_ge_one (buffer : List TrackObservation) (l : Label) :
    1 ≤ heuristicScores buffer l := by
  unfold heuristicScores
  have h1 := hintBonus_nonneg
    (normalizeClassLabel (buffer.getLastD dummyObservation).object_class) l
  have h2 := speedBucketBonus_nonneg
    (listMean (buffer.map (fun s => s.speed))) l
  have h3 := proximityBonus_nonneg (buffer.getLastD dummyObservation).distance l
  have h4 := altitudeBonus_nonneg (buffer.getLastD dummyObservation).z l
  have h5 := variationBonus_nonneg (speedSpan (buffer.map (fun s => s.speed))) l
  have h6 := confidenceBonus_nonneg (buffer.getLastD dummyObservation).confidence
    (normalizeClassLabel (buffer.getLastD dummyObservation).object_class) l
  linarith

/-- Claim C9: on any non-empty window the heuristic gives every label a
strictly positive raw score, so the clamped total is strictly positive,
the uniform-fallback branch of the probability normaliser is not taken,
and every label receives a strictly positive probability. -/
theorem heuristic_path_positive (buffer : List TrackObservation)
    (_hne : buffer ≠ []) :
    (∀ l, 0 < heuristicScores buffer l)
    ∧ 0 < sumOverLabels (fun l => max 0 (heuristicScores buffer l))
    ∧ ¬ sumOverLabels (fun l => max 0 (heuristicScores buffer l)) ≤ 0
    ∧ (∀ l, predictWithHeuristic buffer l
        = max 0 (heuristicScores buffer l)
          / sumOverLabels (fun m => max 0 (heuristicScores buffer m)) * 100)
    ∧ (∀ l, 0 < predictWithHeuristic buffer l) := by
  have hpos : ∀ l, 0 < heuristicScores buffer l := fun l =>
    lt_of_lt_of_le one_pos (heuristicScores_ge_one buffer l)
  have hclamp : ∀ l, (0 : ℚ) < max 0 (heuristicScores buffer l) := fun l =>
    lt_max_of_lt_right (hpos l)
  have htot : 0 < sumOverLabels (fun l => max 0 (heuristicScores buffer l)) := by
    rw [sumOverLabels_eq]
    have a1 := hclamp .HELICOPTER
    have a2 := hclamp .UAV
    have a3 := hclamp .HIGHSPEED
    have a4 := hclamp .BIRD_FLOCK
    have a5 := hclamp .BIRD
    have a6 := hclamp .CIVIL_AIR
    have a7 := hclamp .FIGHTER
    linarith
  have hne2 : ¬ sumOverLabels (fun l => max 0 (heuristicScores buffer l)) ≤ 0 :=
    not_le.mpr htot
  have hform : ∀ l, predictWithHeuristic buffer l
      = max 0 (heuristicScores buffer l)
        / sumOverLabels (fun m => max 0 (heuristicScores buffer m)) * 100 := by
    intro l
    simp only [predictWithHeuristic, normalizeProbabilityMap]
    rw [if_neg hne2]
  refine ⟨hpos, htot, hne2, hform, ?_⟩
  intro l
  rw [hform l]
  have := hclamp l
  positivity

/-- Claim C9 witness at a one-observation window. -/
theorem heuristic_path_positive_witness :
    0 < heuristicScores [mkObs 0] .UAV
    ∧ 0 < predictWithHeuristic [mkObs 0] .UAV :=
  ⟨(heuristic_path_positive [mkObs 0] (by simp)).1 .UAV,
   (heuristic_path_positive [mkObs 0] (by simp)).2.2.2.2 .UAV⟩

/-- Strictly positive heuristic scores pass through the clamp unchanged. -/
theorem clamp_heuristicScores (buffer : List TrackObservation) :
    (fun l => max 0 (heuristicScores buffer l)) = heuristicScores buffer :=
  funext fun l =>
    max_eq_right (le_trans zero_le_one (heuristicScores_ge_one buffer l))

/-- The heuristic score total is strictly positive. -/
theorem sum_heuristicScores_pos (buffer : List TrackObservation) :
    0 < sumOverLabels (heuristicScores buffer) := by
  rw [sumOverLabels_eq]
  have a1 := heuristicScores_ge_one buffer .HELICOPTER
  have a2 := heuristicScores_ge_one buffer .UAV
  have a3 := heuristicScores_ge_one buffer .HIGHSPEED
  have a4 := heuristicScores_ge_one buffer .BIRD_FLOCK
  have a5 := heuristicScores_ge_one buffer .BIRD
  have a6 := heuristicScores_ge_one buffer .CIVIL_AIR
  have a7 := heuristicScores_ge_one buffer .FIGHTER
  linarith

/-- Closed form of the heuristic prediction: the scaling branch of the
normaliser with the clamps removed. -/
theorem predictWithHeuristic_formula (buffer : List TrackObservation)
    (l : Label) :
    predictWithHeuristic buffer l
      = heuristicScores buffer l / sumOverLabels (heuristicScores buffer)
        * 100 := by
  have hcl : max 0 (heuristicScores buffer l) = heuristicScores buffer l :=
    max_eq_right (le_trans zero_le_one (heuristicScores_ge_one buffer l))
  simp only [predictWithHeuristic, normalizeProbabilityMap]
  rw [clamp_heuristicScores buffer,
    if_neg (not_le.mpr (sum_heuristicScores_pos buffer)), hcl]

/-- The heuristic score of each label on the single-zero-observation
window, in label order. -/
theorem heuristicScores_onZeroWindow :
    heuristicScores [mkObs 0] .HELICOPTER = 11 / 2
    ∧ heuristicScores [mkObs 0] .UAV = 5
    ∧ heuristicScores [mkObs 0] .HIGHSPEED = 1
    ∧ heuristicScores [mkObs 0] .BIRD_FLOCK = 6
    ∧ heuristicScores [mkObs 0] .BIRD = 11
    ∧ heuristicScores [mkObs 0] .CIVIL_AIR = 5 / 2
    ∧ heuristicScores [mkObs 0] .FIGHTER = 1 := by
  have hn : normalizeClassLabel "" = none := by decide
  refine ⟨?_, ?_, ?_, ?_, ?_, ?_, ?_⟩ <;>
    · simp [heuristicScores, hintBonus, speedBucketBonus, proximityBonus,
        altitudeBonus, variationBonus, confidenceBonus, listMean, speedSpan,
        listMax, listMin, mkObs, dummyObservation, hn]
      norm_num

/-- Claim C7 counterexample: with no vocabulary and two zero scores the
mapped output is truthy (not discarded), so classification returns the
normaliser uniform distribution instead of falling back to the heuristic
scorer, whose BIRD probability on the same window differs. -/
theorem binary_zero_scores_not_discarded :
    (mapModelOutput [] [0, 0]).isSome = true
    ∧ predictMulticlassProbabilities (.joblib (mkBinaryPredictor 0 0))
        [mkObs 0] .BIRD = 100 / 7
    ∧ predictWithHeuristic [mkObs 0] .BIRD = 275 / 8
    ∧ predictMulticlassProbabilities (.joblib (mkBinaryPredictor 0 0))
        [mkObs 0] .BIRD ≠ predictWithHeuristic [mkObs 0] .BIRD := by
  obtain ⟨h1, h2, h3, h4, h5, h6, h7⟩ := heuristicScores_onZeroWindow
  have hsum : sumOverLabels (heuristicScores [mkObs 0]) = 32 := by
    rw [sumOverLabels_eq, h1, h2, h3, h4, h5, h6, h7]
    norm_num
  have hheur : predictWithHeuristic [mkObs 0] .BIRD = 275 / 8 := by
    rw [predictWithHeuristic_formula, h5, hsum]
    norm_num
  have hm : predictMulticlassProbabilities (.joblib (mkBinaryPredictor 0 0))
      [mkObs 0]
      = normalizeProbabilityMap (binaryFallbackAssign (fun _ => 0) [0, 0]) :=
    rfl
  have hjob : predictMulticlassProbabilities (.joblib (mkBinaryPredictor 0 0))
      [mkObs 0] .BIRD = 100 / 7 := by
    rw [hm]
    simp [normalizeProbabilityMap, sumOverLabels_eq, binaryFallbackAssign,
      max_def, min_def]
  refine ⟨rfl, hjob, hheur, ?_⟩
  rw [hjob, hheur]
  norm_num

/-- Claim C7 (amended): with a probability query, no vocabulary and exactly
two scores, the engine assigns the second score to UAV and the first to
CIVIL_AIR (scaled to percent and clamped); the mapped result is kept even
when its total is zero, in which case the probability normaliser yields
the uniform distribution rather than discarding the result and falling
back to the heuristic scorer. -/
theorem binary_fallback_maps_and_normalizes (p0 p1 : ℚ)
    (buffer : List TrackObservation) (hne : buffer ≠ []) :
    mapModelOutput [] [p0, p1]
      = some (binaryFallbackAssign (fun _ => 0) [p0, p1])
    ∧ binaryFallbackAssign (fun _ => 0) [p0, p1] .UAV
        = max 0 (min 100 (p1 * 100))
    ∧ binaryFallbackAssign (fun _ => 0) [p0, p1] .CIVIL_AIR
        = max 0 (min 100 (p0 * 100))
    ∧ predictMulticlassProbabilities (.joblib (mkBinaryPredictor p0 p1)) buffer
        = normalizeProbabilityMap (binaryFallbackAssign (fun _ => 0) [p0, p1])
    ∧ (sumOverLabels
          (fun l => max 0 (binaryFallbackAssign (fun _ => 0) [p0, p1] l)) ≤ 0 →
        ∀ l, predictMulticlassProbabilities (.joblib (mkBinaryPredictor p0 p1))
          buffer l = 100 / 7) := by
  have hmain : predictMulticlassProbabilities (.joblib (mkBinaryPredictor p0 p1))
      buffer = normalizeProbabilityMap (binaryFallbackAssign (fun _ => 0) [p0, p1]) := by
    cases buffer with
    | nil => exact absurd rfl hne
    | cons a t => rfl
  refine ⟨rfl, rfl, rfl, hmain, ?_⟩
  intro hz l
  rw [hmain]
  simp only [normalizeProbabilityMap]
  rw [if_pos hz]

/-- Claim C7 amended witness at the all-zero binary output. -/
theorem binary_fallback_maps_and_normalizes_witness :
    mapModelOutput [] [(0 : ℚ), 0]
      = some (binaryFallbackAssign (fun _ => 0) [0, 0])
    ∧ predictMulticlassProbabilities (.joblib (mkBinaryPredictor 0 0))
        [mkObs 0] .UAV = 100 / 7 := by
  refine ⟨(binary_fallback_maps_and_normalizes 0 0 [mkObs 0] (by simp)).1, ?_⟩
  exact (binary_fallback_maps_and_normalizes 0 0 [mkObs 0] (by simp)).2.2.2.2
    (by simp [sumOverLabels_eq, binaryFallbackAssign, max_def, min_def]) .UAV

/-- Claim C2: the hysteresis decision returns UAV exactly when the
probability is at least the threshold, NON_UAV exactly when it is at most
threshold minus 20, and UNKNOWN exactly on the open band in between; in
particular the two boundary points decide UAV and NON_UAV respectively. -/
theorem toUavDecision_hysteresis (T p : ℚ) :
    (toUavDecision T p = "UAV" ↔ p ≥ T)
    ∧ (toUavDecision T p = "NON_UAV" ↔ p ≤ T - 20)
    ∧ (toUavDecision T p = "UNKNOWN" ↔ (T - 20 < p ∧ p < T))
    ∧ toUavDecision T T = "UAV"
    ∧ toUavDecision T (T - 20) = "NON_UAV" := by
  unfold toUavDecision
  refine ⟨?_, ?_, ?_, ?_, ?_⟩
  · split_ifs with h1 h2 <;> simp_all <;> linarith
  · split_ifs with h1 h2 <;> simp_all <;> linarith
  · split_ifs with h1 h2 <;> simp_all <;> constructor <;> intro h <;> linarith
  · simp
  · have h1 : ¬ (T - 20 ≥ T) := by linarith
    simp [h1]

/-- Claim C3 witness: a concrete push retains the pushed observation and
matches the filter characterisation. -/
theorem pushWindow_evicts_exactly_witness :
    pushWindow 2000 [mkObs 1000] (mkObs 3000)
      = ([mkObs 1000] ++ [mkObs 3000]).filter
          (fun o => decide ((mkObs 3000).timestamp_ms - 2000 ≤ o.timestamp_ms))
    ∧ mkObs 3000 ∈ pushWindow 2000 [mkObs 1000] (mkObs 3000) := by
  have h := pushWindow_evicts_exactly 2000 [mkObs 1000] (mkObs 3000)
    (by norm_num) (by decide)
  exact ⟨h.1, h.2.1⟩

/-- A key absent from every entry of a dict is not found. -/
theorem find?_eq_none_of_any_false {α : Type} (h : List (String × α))
    (k : String) (hk : h.any (fun p => p.1 == k) = false) :
    h.find? (fun p => p.1 == k) = none := by
  rw [List.find?_eq_none]
  intro x hx
  have := (List.any_eq_false.mp hk) x hx
  simpa using this

/-- Looking up a key in the in-place-updated dict yields the new value. -/
theorem find?_map_update {α : Type} (h : List (String × α)) (k : String)
    (v : α) (hk : h.any (fun p => p.1 == k) = true) :
    (h.map (fun p => if p.1 == k then (k, v) else p)).find?
      (fun p => p.1 == k) = some (k, v) := by
  induction h with
  | nil => simp at hk
  | cons q t ih =>
    by_cases hq : q.1 == k
    · simp [List.find?, hq]
    · have ht : t.any (fun p => p.1 == k) = true := by
        simp only [List.any_cons, hq, Bool.false_or] at hk
        exact hk
      simp only [List.map_cons, if_neg hq]
      rw [List.find?_cons_of_neg _ (by simpa using hq)]
      exact ih ht

/-- Python dict set-then-get returns the assigned value. -/
theorem dictGetD_dictSet_same {α : Type} (h : List (String × α))
    (k : String) (v : α) (fb : α) :
    dictGetD (dictSet h k v) k fb = v := by
  unfold dictSet dictGetD
  by_cases hany : h.any (fun p => p.1 == k) = true
  · rw [if_pos hany, find?_map_update h k v hany]
    rfl
  · rw [if_neg hany]
    have hnone := find?_eq_none_of_any_false h k (Bool.eq_false_iff.mpr hany)
    rw [List.find?_append, hnone]
    simp [List.find?]

/-- The emission flags of a decision sequence pair each decision with its
predecessor (the stored previous decision for the first entry). -/
theorem runDecisions_zip (object_id : String) (ds : List String) :
    ∀ history, runDecisions object_id history ds
      = ((dictGetD history object_id "UNKNOWN" :: ds).zip ds).map
          (fun pr => decide (pr.1 ≠ "UAV" ∧ pr.2 = "UAV")) := by
  induction ds with
  | nil => intro history; simp [runDecisions]
  | cons d ds ih =>
    intro history
    simp only [runDecisions, decisionStep, List.zip_cons_cons, List.map_cons]
    refine congrArg₂ _ rfl ?_
    rw [ih (dictSet history object_id d), dictGetD_dictSet_same]

/-- Claim C4: an ALERT is emitted for a track exactly when the newly
computed decision is UAV and the previously recorded decision (UNKNOWN for
a never-seen track) is not UAV, so each flag pairs a decision with its
predecessor; the sequence UNKNOWN, UNKNOWN, UAV, UAV emits exactly one
alert, on the transition into its third entry. -/
theorem alert_on_uav_transition (history : List (String × String))
    (object_id : String) (d : String) (ds : List String) :
    ((decisionStep history object_id d).2 = true
      ↔ dictGetD history object_id "UNKNOWN" ≠ "UAV" ∧ d = "UAV")
    ∧ (decisionStep history object_id d).1
        = dictSet history object_id d
    ∧ runDecisions object_id history ds
        = ((dictGetD history object_id "UNKNOWN" :: ds).zip ds).map
            (fun pr => decide (pr.1 ≠ "UAV" ∧ pr.2 = "UAV"))
    ∧ runDecisions "T1" [] ["UNKNOWN", "UNKNOWN", "UAV", "UAV"]
        = [false, false, true, false]
    ∧ (runDecisions "T1" [] ["UNKNOWN", "UNKNOWN", "UAV", "UAV"]).count true
        = 1 := by
  refine ⟨?_, rfl, runDecisions_zip object_id ds history, by decide, by decide⟩
  simp [decisionStep]

/-- Claim C8: the percentile helper returns (0, 0) on an empty history;
otherwise it sorts the history ascending (a sorted permutation) and reads
the entries at the floor-of-fraction-times-n-minus-1 indices, rounded to
three decimals; concretely a single-element history yields that element
for both percentiles, and the history 1, 2, 3, 4 yields 2 and 3. -/
theorem percentiles_spec (values : List ℚ) (hne : values ≠ []) :
    percentiles [] = (0, 0)
    ∧ (∃ ordered : List ℚ, List.Perm ordered values
        ∧ List.Sorted (fun a b => a ≤ b) ordered
        ∧ percentiles values
          = (round3 (ordered.getD (percentileIndex (1 / 2) values.length) 0),
             round3 (ordered.getD (percentileIndex (19 / 20) values.length) 0)))
    ∧ percentiles [5] = (5, 5)
    ∧ percentiles [1, 2, 3, 4] = (2, 3) := by
  refine ⟨rfl, ?_, ?_, ?_⟩
  · refine ⟨values.insertionSort (fun a b => a ≤ b),
      List.perm_insertionSort _ values, List.sorted_insertionSort _ values, ?_⟩
    unfold percentiles
    rw [if_neg hne]
  · have h50 : percentileIndex (1 / 2) 1 = 0 := by
      unfold percentileIndex
      norm_num
    have h95 : percentileIndex (19 / 20) 1 = 0 := by
      unfold percentileIndex
      norm_num
    unfold percentiles
    rw [if_neg (by simp)]
    simp only [List.length_singleton, h50, h95]
    norm_num [List.insertionSort, List.orderedInsert, round3, roundHalfEven]
  · have h50 : percentileIndex (1 / 2) 4 = 1 := by
      unfold percentileIndex
      norm_num
      try rfl
    have h95 : percentileIndex (19 / 20) 4 = 2 := by
      unfold percentileIndex
      norm_num
      try rfl
    unfold percentiles
    rw [if_neg (by simp)]
    simp only [List.length_cons, List.length_nil, h50, h95]
    norm_num [List.insertionSort, List.orderedInsert, round3, roundHalfEven]

/-- Claim C8 witness at the two concrete histories. -/
theorem percentiles_spec_witness :
    percentiles [5] = (5, 5) ∧ percentiles [1, 2, 3, 4] = (2, 3) :=
  ⟨(percentiles_spec [5] (by simp)).2.2.1,
   (percentiles_spec [1, 2, 3, 4] (by simp)).2.2.2⟩

/-- Key membership after a Python dict assignment: the old keys plus the
assigned key. -/
theorem mem_keys_dictSet {α : Type} (m : List (String × α)) (k k' : String)
    (v : α) :
    k' ∈ (dictSet m k v).map Prod.fst ↔ k' ∈ m.map Prod.fst ∨ k' = k := by
  unfold dictSet
  by_cases hk : m.any (fun p => p.1 == k) = true
  · rw [if_pos hk]
    have hkeys : (m.map (fun p => if p.1 == k then (k, v) else p)).map
        Prod.fst = m.map Prod.fst := by
      rw [List.map_map]
      apply List.map_congr_left
      intro p _
      by_cases hpk : p.1 = k
      · simp [hpk]
      · simp [hpk]
    rw [hkeys]
    constructor
    · exact Or.inl
    · rintro (h | rfl)
      · exact h
      · rw [List.any_eq_true] at hk
        obtain ⟨p, hp, hpk⟩ := hk
        exact List.mem_map.mpr ⟨p, hp, beq_iff_eq.mp hpk⟩
  · rw [if_neg hk]
    rw [List.map_append]
    simp [eq_comm]

/-- Key membership after a Python dict deletion. -/
theorem mem_keys_eraseKey {α : Type} (m : List (String × α))
    (dropped k' : String) :
    k' ∈ (m.filter (fun p => !(p.1 == dropped))).map Prod.fst
      ↔ k' ∈ m.map Prod.fst ∧ k' ≠ dropped := by
  simp only [List.mem_map, List.mem_filter, Bool.not_eq_eq_eq_not,
    Bool.not_true, beq_eq_false_iff_ne, ne_eq]
  constructor
  · rintro ⟨p, ⟨hp, hne⟩, hpe⟩
    exact ⟨⟨p, hp, hpe⟩, by rw [← hpe]; exact hne⟩
  · rintro ⟨⟨p, hp, hpe⟩, hne⟩
    exact ⟨p, ⟨hp, by rw [hpe]; exact hne⟩, hpe⟩

/-- Every reachable registry state satisfies the registry invariant. -/
theorem reachable_registryInv (r : Registry) (h : Reachable r) :
    RegistryInv r := by
  induction h with
  | init =>
    constructor <;> simp [initialRegistry, hasModel]
  | register r r2 model_id model activate load_ok hr hs ih =>
    unfold registerJoblibModel at hs
    split at hs
    · exact absurd hs (by simp)
    · split at hs
      · exact absurd hs (by simp)
      · cases activate with
        | true =>
          simp only [if_true] at hs
          unfold activateModel at hs
          split at hs
          · have he := Except.ok.inj hs
            subst he
            refine ⟨?_, ?_⟩
            · exact (mem_keys_dictSet _ _ _ _).mpr (Or.inl ih.1)
            · exact (mem_keys_dictSet _ _ _ _).mpr (Or.inr rfl)
          · exact absurd hs (by simp)
        | false =>
          simp only [if_false] at hs
          have he := Except.ok.inj hs
          subst he
          refine ⟨?_, ?_⟩
          · exact (mem_keys_dictSet _ _ _ _).mpr (Or.inl ih.1)
          · exact (mem_keys_dictSet _ _ _ _).mpr (Or.inl ih.2)
  | activate r r2 model_id hr hs ih =>
    unfold activateModel at hs
    split at hs
    · have he := Except.ok.inj hs
      subst he
      exact ⟨ih.1, by assumption⟩
    · exact absurd hs (by simp)
  | unregister r r2 model_id hr hs ih =>
    unfold unregisterModel at hs
    split at hs
    · exact absurd hs (by simp)
    · split at hs
      · exact absurd hs (by simp)
      · have he := Except.ok.inj hs
        subst he
        rename_i hmem hdef
        rw [not_not] at hmem
        refine ⟨?_, ?_⟩
        · exact (mem_keys_eraseKey _ _ _).mpr
            ⟨ih.1, fun hc => hdef (hc ▸ rfl)⟩
        · by_cases hact : r.active_model_id = model_id
          · simp only [hact, if_pos rfl]
            exact (mem_keys_eraseKey _ _ _).mpr
              ⟨ih.1, fun hc => hdef (hc ▸ rfl)⟩
          · simp only [if_neg hact]
            exact (mem_keys_eraseKey _ _ _).mpr ⟨ih.2, hact⟩

/-- Claim C6: in every reachable registry state the default heuristic
model is registered and the active pointer resolves; unregistering the
default always raises; activating an unknown id raises (and, the
operations being functional, a raising operation leaves the state
unchanged); unregistering the active model resets the pointer to the
default while the default stays registered; and a successful registration
only adds the stripped id to the key set. -/
theorem registry_invariant_ops (r : Registry) (h : Reachable r) :
    (hasModel r "heuristic-default" ∧ hasModel r r.active_model_id)
    ∧ (∃ e, unregisterModel r "heuristic-default" = Except.error e)
    ∧ (∀ model_id, ¬ hasModel r model_id →
        ∃ e, activateModel r model_id = Except.error e)
    ∧ (∀ model_id, r.active_model_id = model_id →
        model_id ≠ "heuristic-default" →
        ∀ r2, unregisterModel r model_id = Except.ok r2 →
          r2.active_model_id = "heuristic-default"
          ∧ hasModel r2 "heuristic-default")
    ∧ (∀ model_id model activate load_ok r2,
        registerJoblibModel r model_id model activate load_ok
          = Except.ok r2 →
        hasModel r2 (pyStrip model_id)
        ∧ (∀ k, hasModel r k → hasModel r2 k)
        ∧ (∀ k, hasModel r2 k → hasModel r k ∨ k = pyStrip model_id)) := by
  have hinv := reachable_registryInv r h
  refine ⟨hinv, ?_, ?_, ?_, ?_⟩
  · unfold unregisterModel
    by_cases hm : hasModel r "heuristic-default"
    · rw [if_neg (not_not.mpr hm), if_pos rfl]
      exact ⟨_, rfl⟩
    · rw [if_pos hm]
      exact ⟨_, rfl⟩
  · intro model_id hm
    unfold activateModel
    rw [if_neg hm]
    exact ⟨_, rfl⟩
  · intro model_id hact hdef r2 hok
    have hm : hasModel r model_id := hact ▸ hinv.2
    unfold unregisterModel at hok
    rw [if_neg (not_not.mpr hm), if_neg hdef] at hok
    have he := Except.ok.inj hok
    subst he
    refine ⟨by simp [hact], ?_⟩
    exact (mem_keys_eraseKey _ _ _).mpr
      ⟨hinv.1, fun hc => hdef (hc ▸ rfl)⟩
  · intro model_id model activate load_ok r2 hok
    unfold registerJoblibModel at hok
    split at hok
    · exact absurd hok (by simp)
    · split at hok
      · exact absurd hok (by simp)
      · have hmodels : r2.models = dictSet r.models (pyStrip model_id) model := by
          cases activate with
          | true =>
            simp only [if_true] at hok
            unfold activateModel at hok
            split at hok
            · exact (congrArg Registry.models (Except.ok.inj hok)).symm
            · exact absurd hok (by simp)
          | false =>
            simp only [if_false] at hok
            exact (congrArg Registry.models (Except.ok.inj hok)).symm
        refine ⟨?_, ?_, ?_⟩
        · unfold hasModel
          rw [hmodels]
          exact (mem_keys_dictSet _ _ _ _).mpr (Or.inr rfl)
        · intro k hk
          unfold hasModel
          rw [hmodels]
          exact (mem_keys_dictSet _ _ _ _).mpr (Or.inl hk)
        · intro k hk
          unfold hasModel at hk
          rw [hmodels] at hk
          exact (mem_keys_dictSet _ _ _ _).mp hk

/-- Claim C6 witness: the initial registry, a registration of a second
model, and the failing operations at concrete inputs. -/
theorem registry_invariant_ops_witness :
    (hasModel initialRegistry "heuristic-default"
      ∧ hasModel initialRegistry initialRegistry.active_model_id)
    ∧ (∃ e, unregisterModel initialRegistry "heuristic-default"
        = Except.error e)
    ∧ (∃ e, activateModel initialRegistry "missing" = Except.error e) := by
  have h := registry_invariant_ops initialRegistry Reachable.init
  refine ⟨h.1, h.2.1, ?_⟩
  exact h.2.2.1 "missing" (by decide)

/-- Looking up a key in a concatenation: the right-hand (later) entries
win, the left-hand entries are only consulted when the key is absent on
the right. -/
theorem pyDictGet_append (l1 l2 : List (String × JVal)) (k : String) :
    pyDictGet (l1 ++ l2) k
      = match pyDictGet l2 k with
        | some v => some v
        | none => pyDictGet l1 k := by
  induction l1 with
  | nil =>
    simp only [List.nil_append]
    cases h : pyDictGet l2 k <;> simp [pyDictGet]
  | cons p t ih =>
    simp only [List.cons_append, pyDictGet, List.append_eq]
    rw [ih]
    cases pyDictGet l2 k with
    | none => rfl
    | some v => rfl

/-- Claim C10: in the merged normalized object record the classification
result is merged last, so the published class is the classifier top class
(whatever class hint or class key the raw feed object carried), the
published confidence is the classifier top confidence, and the published
id is the derived track id because the classification result carries no id
key. -/
theorem classification_overrides_merge (obj : List (String × JVal))
    (object_id object_class : String)
    (x y z vx vy vz speed distance confidence inference_ms threshold : ℚ)
    (feature_window_ms : Int) (model_version : String)
    (probabilities : Label → ℚ) :
    pyDictGet
      (normalizedObjectEntries obj object_id object_class x y z vx vy vz
        speed distance confidence inference_ms
        (observeEntries threshold feature_window_ms model_version
          probabilities)) "class"
      = some (.str (labelName
          ((sortedProbabilityEntries probabilities).headD
            (.HELICOPTER, 0)).1))
    ∧ pyDictGet
      (normalizedObjectEntries obj object_id object_class x y z vx vy vz
        speed distance confidence inference_ms
        (observeEntries threshold feature_window_ms model_version
          probabilities)) "confidence"
      = some (.num (round2
          ((sortedProbabilityEntries probabilities).headD
            (.HELICOPTER, 0)).2))
    ∧ pyDictGet
      (normalizedObjectEntries obj object_id object_class x y z vx vy vz
        speed distance confidence inference_ms
        (observeEntries threshold feature_window_ms model_version
          probabilities)) "id"
      = some (.str object_id) := by
  refine ⟨?_, ?_, ?_⟩
  · simp only [normalizedObjectEntries]
    rw [pyDictGet_append]
    rfl
  · simp only [normalizedObjectEntries]
    rw [pyDictGet_append]
    rfl
  · simp only [normalizedObjectEntries]
    rw [pyDictGet_append, pyDictGet_append]
    rfl

/-- Claim C5: when a poll cycle fails, the published objects and events
and the latency histories are exactly those of the last successful cycle,
only the status block is rebuilt (from the previous status and the
retained objects) and reports DISCONNECTED, the error text is recorded,
and the loop goes on to process the remaining cycles; across any run of
consecutive failing cycles the published objects and events stay
unchanged. -/
theorem poll_failure_preserves_frame (s : ServiceState) (error : String)
    (rest : List CycleOutcome) :
    (pollLoopFailStep s error).last_frame_objects = s.last_frame_objects
    ∧ (pollLoopFailStep s error).last_frame_events = s.last_frame_events
    ∧ (pollLoopFailStep s error).lat = s.lat
    ∧ (pollLoopFailStep s error).last_error = error
    ∧ (pollLoopFailStep s error).source_connected = false
    ∧ (pollLoopFailStep s error).last_frame_status
        = buildStatus s.model_version s.lat
            (statusToSource s.last_frame_status) s.last_frame_objects false
    ∧ (pollLoopFailStep s error).last_frame_status.connectionStatus
        = "DISCONNECTED"
    ∧ pollLoopRun s (.failure error :: rest)
        = pollLoopRun (pollLoopFailStep s error) rest
    ∧ (∀ outcomes, (∀ o ∈ outcomes, ∃ e, o = CycleOutcome.failure e) →
        (pollLoopRun s outcomes).last_frame_objects = s.last_frame_objects
        ∧ (pollLoopRun s outcomes).last_frame_events
            = s.last_frame_events) := by
  refine ⟨rfl, rfl, rfl, rfl, rfl, rfl, rfl, rfl, ?_⟩
  intro outcomes
  induction outcomes generalizing s with
  | nil => exact fun _ => ⟨rfl, rfl⟩
  | cons o os ih =>
    intro hall
    obtain ⟨e, rfl⟩ := hall o (List.mem_cons_self _ _)
    have h1 := ih (pollLoopFailStep s e)
      (fun o2 ho2 => hall o2 (List.mem_cons_of_mem _ ho2))
    exact ⟨h1.1, h1.2⟩

/-- Claim C5 witness at the startup state and a concrete failing cycle. -/
theorem poll_failure_preserves_frame_witness :
    (pollLoopFailStep startupServiceState "boom").last_error = "boom"
    ∧ (pollLoopRun startupServiceState
        [CycleOutcome.failure "boom"]).last_frame_objects
        = startupServiceState.last_frame_objects
    ∧ (pollLoopFailStep startupServiceState
        "boom").last_frame_status.connectionStatus = "DISCONNECTED" := by
  have h := poll_failure_preserves_frame startupServiceState "boom" []
  refine ⟨h.2.2.2.1, ?_, h.2.2.2.2.2.2.1⟩
  exact (h.2.2.2.2.2.2.2.2 [CycleOutcome.failure "boom"]
    (fun o ho => ⟨"boom", by simpa using ho⟩)).1

end Argus
